import Mathlib

/-!
Shallow embedding of `rules.py` (OwlMind rule engine): knowledge Elements and
their fuzzy field matcher, Rule action execution, and RuleBase selection, with
theorems settling the specification claims C1-C10.

Modelling conventions:
* Python numbers are embedded as exact rationals (`Int` for int, `ℚ` for
  float); the float literals 0.25, 0.75, 0.9 and 1e-6 occurring in the source
  are exactly representable, and the length-ratio qualities are modelled as
  exact fractions.
* Python exceptions are modelled with `Except`: the matcher can raise
  `ZeroDivisionError` (`len(pattern)/len(value)` with an empty value),
  `ValueError` (unpacking `test.split('/@')` into two names when the split
  has more than two parts) and `IndexError` (`match.group(1)` on a pattern
  that ended up with no capture group); rule execution can raise
  `AttributeError` (`dict.elements()`, the undefined `self.DEFAULT_KEY`,
  `key.startswith` on a non-string key).
* The `re/...` regex branch of `_matcher` runs an arbitrary user pattern
  through `re.search`; it is embedded as an explicit search-function parameter
  `reS pattern value`, where `none` stands for "no match or `re.error`"
  (the source catches `re.error` and falls through) and `some v` stands for a
  match with extracted value `v` (group(1) if the pattern has groups, which
  can be Python `None` for a non-participating group, else group(0)).
  The `$*` extract-match branch compiles a pattern of a known restricted shape
  (escaped literals joined by `(.*)` or `([^\s]+)` groups), so that branch is
  embedded concretely, including Python's leftmost-then-greedy preference.
* Python `dict`s and `Element.__dict__` are embedded as association lists in
  insertion order; updating an existing key keeps its position, inserting a
  new key appends (CPython dict semantics).  `hasattr(self, key)` is embedded
  as key presence: for keys naming class attributes (methods) `hasattr` is
  true in Python but the matcher then scores the bound method against the
  test, which falls through every isinstance branch and yields quality 0 -
  the same observable score as the absent-key branch, and no side effects.
* `RuleBase` stores each namespace's rules in a Python `set`, whose iteration
  order is unspecified; the embedding uses an explicit list so the order is
  part of the input.  `random.choices` draws are embedded by a parameter
  `u : ℚ` standing for the uniform draw `random.random()` in `[0,1)`,
  following CPython's implementation (floored product for the unweighted
  call, bisection over cumulative weights for the weighted one).
-/

deriving instance DecidableEq for Except

namespace Owlmind

/-- Python runtime values relevant to the engine: strings, ints, floats
(embedded as exact rationals) and `None`.  In `_matcher` every other Python
value (lists, methods, ...) behaves exactly like `None` - it falls through
every `isinstance` branch and yields quality 0 - and in the action language
the only discriminations are `isinstance(..., str)` and truthiness, so
`vNone` stands in for all non-string, non-numeric values. -/
inductive Val where
  | vStr (s : String)
  | vInt (n : Int)
  | vFloat (q : ℚ)
  | vNone
deriving DecidableEq, Repr

/-- Numeric view of a value: `isinstance(x, (int, float))` plus the value
as an exact rational (Python `1 == 1.0` is true, as is `(1:ℚ) = (1:ℚ)`). -/
def Val.asNum? : Val → Option ℚ
  | .vInt n => some (n : ℚ)
  | .vFloat q => some q
  | _ => none

/-- Whitespace characters of Python's `str.strip` / regex `\s` (ASCII part). -/
def isWs (c : Char) : Bool :=
  c = ' ' || c = '\t' || c = '\n' || c = '\r' || c = '\x0b' || c = '\x0c'

/-- Boolean prefix test on character lists. -/
def isPre : List Char → List Char → Bool
  | [], _ => true
  | _ :: _, [] => false
  | a :: as, b :: bs => a = b && isPre as bs

/-- Python `p in s` substring containment (true for the empty pattern). -/
def hasSubL (p : List Char) : List Char → Bool
  | [] => isPre p []
  | c :: t => isPre p (c :: t) || hasSubL p t

/-- Strip a literal prefix, returning the remainder on success. -/
def dropPre : List Char → List Char → Option (List Char)
  | [], s => some s
  | _ :: _, [] => none
  | a :: as, b :: bs => if a = b then dropPre as bs else none

/-- Python `value.endswith(p)`. -/
def endsW (p s : List Char) : Bool := isPre p.reverse s.reverse

/-- Fuel-driven worker for `splitOnL`; the fuel `length + 1` always
suffices because each step consumes at least one character. -/
def splitGo : Nat → List Char → List Char → List Char → List (List Char)
  | 0, _, s, acc => [acc.reverse ++ s]
  | _ + 1, _, [], acc => [acc.reverse]
  | f + 1, sep, c :: rest, acc =>
    match dropPre sep (c :: rest) with
    | some rem =>
      if sep.isEmpty then splitGo f sep rest (c :: acc)
      else acc.reverse :: splitGo f sep rem []
    | none => splitGo f sep rest (c :: acc)

/-- Python `s.split(sep)` / the non-overlapping left-to-right occurrence
scan of `s.replace(sep, ...)` for a non-empty separator. -/
def splitOnL (sep s : List Char) : List (List Char) :=
  splitGo (s.length + 1) sep s []

/-- All splits `(take k, drop k)` of a list, `k` ascending. -/
def splitsAsc : List Char → List (List Char × List Char)
  | [] => [([], [])]
  | c :: t => ([], c :: t) :: (splitsAsc t).map (fun p => (c :: p.1, p.2))

/-- The two capture-group shapes produced by the `$*` compiler:
`(.*)` for `$*` and `([^\s]+)` for `$*$`. -/
inductive Grp where
  | dotStar
  | nonSpace
deriving DecidableEq, Repr

/-- Candidate `(capture, remainder)` splits for one greedy group, in the
backtracking engine's preference order (longest capture first).  `(.*)`
admits every split; `([^\s]+)` admits non-empty all-non-whitespace captures. -/
def grpCands : Grp → List Char → List (List Char × List Char)
  | .dotStar, s => (splitsAsc s).reverse
  | .nonSpace, s =>
    ((splitsAsc s).reverse).filter (fun p => !p.1.isEmpty && p.1.all (fun c => !isWs c))

/-- Fuel-driven existence check: does `(G lit₁)(G lit₂)...` match a prefix of
`s` (trailing characters free)?  Fuel `lits.length + 1` always suffices. -/
def tailOKF : Nat → Grp → List (List Char) → List Char → Bool
  | 0, _, _, _ => false
  | _ + 1, _, [], _ => true
  | f + 1, g, lit :: more, s =>
    (grpCands g s).any (fun p =>
      match dropPre lit p.2 with
      | some s2 => tailOKF f g more s2
      | none => false)

/-- Existence of a match of `(G lit₁)(G lit₂)...` at the current position. -/
def tailOK (g : Grp) (lits : List (List Char)) (s : List Char) : Bool :=
  tailOKF (lits.length + 1) g lits s

/-- First capture group of `(G lit₁)(G lit₂)...` matched at the current
position, with the group greedy (longest capture whose remainder still
matches), mirroring the backtracking regex engine. -/
def capAt (g : Grp) (rest : List (List Char)) (s1 : List Char) : Option (List Char) :=
  match rest with
  | [] => none
  | lit :: more =>
    (grpCands g s1).findSome? (fun p =>
      match dropPre lit p.2 with
      | some s2 => if tailOK g more s2 then some p.1 else none
      | none => none)

/-- `re.search` of the compiled pattern `lit₀ G lit₁ G ...` (at least one
group) against the value: leftmost matching position wins, and at that
position the first group is greedy.  Returns the first group's capture. -/
def searchCap (g : Grp) (p0 : List Char) (rest : List (List Char)) :
    List Char → Option (List Char)
  | [] =>
    match dropPre p0 [] with
    | some s1 => capAt g rest s1
    | none => none
  | c :: t =>
    match
      (match dropPre p0 (c :: t) with
       | some s1 => capAt g rest s1
       | none => none) with
    | some cap => some cap
    | none => searchCap g p0 rest t

/-- Digit accumulator: `some` iff every character is a decimal digit. -/
def readNatGo : List Char → Nat → Option Nat
  | [], acc => some acc
  | c :: t, acc => if c.isDigit then readNatGo t (acc * 10 + (c.toNat - 48)) else none

/-- Non-empty all-digit reading. -/
def readNat? : List Char → Option Nat
  | [] => none
  | l => readNatGo l 0

/-- Strip leading and trailing whitespace (Python `int`/`float` accept it). -/
def stripWsL (l : List Char) : List Char :=
  ((l.dropWhile isWs).reverse.dropWhile isWs).reverse

/-- Split an optional leading sign; `true` means negative. -/
def signSplit : List Char → Bool × List Char
  | '+' :: t => (false, t)
  | '-' :: t => (true, t)
  | l => (false, l)

/-- Python `int(s)` on the forms the engine can meet (optional surrounding
whitespace, optional sign, non-empty digit run; digit-group underscores are
not modelled). `none` models `ValueError`. -/
def pyIntL? (l : List Char) : Option Int :=
  let p := signSplit (stripWsL l)
  (readNat? p.2).map (fun n => if p.1 then -(n : Int) else (n : Int))

/-- Exponent digits with optional sign: returns the exponent and remainder. -/
def expDigits (t : List Char) : Option (Int × List Char) :=
  let p := signSplit t
  let d := p.2.span Char.isDigit
  match readNat? d.1 with
  | some n => some ((if p.1 then -(n : Int) else (n : Int)), d.2)
  | none => none

/-- Optional `e`/`E` exponent part. -/
def expPart : List Char → Option (Int × List Char)
  | 'e' :: t => expDigits t
  | 'E' :: t => expDigits t
  | l => some (0, l)

/-- Python `float(s)` on the grammar `sign? (digits [. digits?] | . digits)
exp?` (optional surrounding whitespace; `inf`/`nan` and digit-group
underscores are not modelled - none of them contains a `.`-dot in the forms
the coercion branch feeds to `float`). `none` models `ValueError`. -/
def pyFloatL? (l0 : List Char) : Option ℚ :=
  let sp := signSplit (stripWsL l0)
  let ip := sp.2.span Char.isDigit
  let hasDot : Bool := match ip.2 with | '.' :: _ => true | _ => false
  let fr : List Char × List Char :=
    match ip.2 with
    | '.' :: t => t.span Char.isDigit
    | r => ([], r)
  let mant : List Char := ip.1 ++ (if hasDot then fr.1 else [])
  let rest1 : List Char := if hasDot then fr.2 else ip.2
  if mant.isEmpty then none
  else
    match expPart rest1 with
    | some (e, []) =>
      let n : ℚ := ((readNatGo mant 0).getD 0 : ℚ)
      let base : ℚ := n / (10 : ℚ) ^ (if hasDot then fr.1.length else 0) * (10 : ℚ) ^ e
      some (if sp.1 then -base else base)
    | _ => none

/-- The numeric-string coercion attempted before comparison
(rules.py 96-105): `float(value) if "." in value else int(value)`,
with a parse failure leaving the string unchanged. -/
def pyParseNum (s : String) : Option Val :=
  if s.data.contains '.' then (pyFloatL? s.data).map Val.vFloat
  else (pyIntL? s.data).map Val.vInt

/-- Type normalisation of `_matcher` (rules.py 94-105): when one side is a
string and the other a number, try to parse the string; on failure both
sides stay as they are. -/
def coerceVal (value test : Val) : Val × Val :=
  match value, test with
  | .vStr s, .vInt _ => ((pyParseNum s).getD (.vStr s), test)
  | .vStr s, .vFloat _ => ((pyParseNum s).getD (.vStr s), test)
  | .vInt _, .vStr s => (value, (pyParseNum s).getD (.vStr s))
  | .vFloat _, .vStr s => (value, (pyParseNum s).getD (.vStr s))
  | _, _ => (value, test)

/-- The exceptions `Element._matcher` can raise. -/
inductive MErr where
  | zeroDiv
  | unpackErr
  | groupErr
deriving DecidableEq, Repr

/-- The `$*` extract-matching sub-branch of `_matcher` (rules.py 134-146),
after the optional `/@name` suffix has been split off: compile the test to
literal parts joined by capture groups and search the value.  A test whose
`$*` marker sat entirely in the `/@` suffix compiles to a group-less pattern,
on which a successful search raises `IndexError` via `match.group(1)`. -/
def extractGo (mv0 : Val) (v t1 : List Char) (tg : String) :
    Except MErr (ℚ × Val × Option String) :=
  let pg : List (List Char) × Grp :=
    if hasSubL ['$', '*', '$'] t1 then (splitOnL ['$', '*', '$'] t1, .nonSpace)
    else (splitOnL ['$', '*'] t1, .dotStar)
  match pg.1 with
  | [] => .ok (0, mv0, some tg)
  | [p0] =>
    if hasSubL p0 v then .error .groupErr else .ok (0, mv0, some tg)
  | p0 :: rest =>
    match searchCap pg.2 p0 rest v with
    | some cap => .ok (3/4, .vStr (String.mk cap), some tg)
    | none => .ok (0, mv0, some tg)

/-- Python `test[:-1]` etc. need only `List.dropLast`/`List.drop`. -/
def partStar : List Char → List Char × List Char
  | [] => ([], [])
  | '*' :: rest => ([], rest)
  | c :: rest =>
    let p := partStar rest
    (c :: p.1, p.2)

/-- The string-vs-string branch of `_matcher` (rules.py 109-169).  `mv0` is
the original (pre-coercion) value object that `match_value` was initialised
with; `vs`/`ts` are the coerced sides, which in this branch always coincide
with the originals. -/
def strMatch (reS : String → String → Option Val) (mv0 : Val) (vs ts : String) :
    Except MErr (ℚ × Val × Option String) :=
  let v := vs.data
  let t := ts.data
  if vs = ts then .ok (1, mv0, none)
  else if ts = "*" then .ok (1/4, mv0, none)
  else if isPre ['r', 'e', '/'] t then
    match reS (String.mk (if endsW ['/'] t then (t.drop 3).dropLast else t.drop 3)) vs with
    | some ext => .ok (3/4, ext, none)
    | none => .ok (0, mv0, none)
  else if t.contains '*' then
    if hasSubL ['$', '*'] t then
      if hasSubL ['/', '@'] t then
        match splitOnL ['/', '@'] t with
        | [t1, tg] => extractGo mv0 v t1 (String.mk tg)
        | _ => .error .unpackErr
      else extractGo mv0 v t ("match")
    else if isPre ['*'] t then
      if endsW ['*'] t then
        let p := (t.drop 1).dropLast
        if hasSubL p v then
          if v.length = 0 then .error .zeroDiv
          else .ok ((p.length : ℚ) / (v.length : ℚ), mv0, none)
        else .ok (0, mv0, none)
      else
        let p := t.drop 1
        if endsW p v then
          if v.length = 0 then .error .zeroDiv
          else .ok ((p.length : ℚ) / (v.length : ℚ), mv0, none)
        else .ok (0, mv0, none)
    else if endsW ['*'] t then
      let p := t.dropLast
      if hasSubL p v then
        if v.length = 0 then .error .zeroDiv
        else .ok ((p.length : ℚ) / (v.length : ℚ), mv0, none)
      else .ok (0, mv0, none)
    else
      let pr := partStar t
      if isPre pr.1 v && endsW pr.2 v then
        if v.length = 0 then .error .zeroDiv
        else .ok (((pr.1.length : ℚ) + (pr.2.length : ℚ)) / (v.length : ℚ), mv0, none)
      else .ok (0, mv0, none)
  else .ok (0, mv0, none)

/-- `Element._matcher` before the final return-line adjustment
(rules.py 90-177): the raw `(match_quality, match_value, match_target)`
state at the `return` statement. -/
def matcherCore (reS : String → String → Option Val) (value0 test0 : Val) :
    Except MErr (ℚ × Val × Option String) :=
  match coerceVal value0 test0 with
  | (.vStr vs, .vStr ts) => strMatch reS value0 vs ts
  | (a, b) =>
    match a.asNum?, b.asNum? with
    | some x, some y =>
      if x = y then .ok (1, value0, none)
      else if abs (x - y) < 1/1000000 then .ok (9/10, value0, none)
      else .ok (0, value0, none)
    | _, _ => .ok (0, value0, none)

/-- Result triple of `Element._matcher`. -/
structure MRes where
  quality : ℚ
  extracted : Option Val
  target : Option String
deriving DecidableEq, Repr

/-- `Element._matcher` (rules.py 74-178), including the return-line
adjustment `match_value if match_quality else None`. -/
def matcher (reS : String → String → Option Val) (value test : Val) :
    Except MErr MRes :=
  (matcherCore reS value test).map (fun r =>
    ⟨r.1, if r.1 = 0 then none else some r.2.1, r.2.2⟩)

/-- A stub regex collaborator for concrete evaluations that never reach the
`re/` branch: every pattern behaves as a non-match. -/
def noRe : String → String → Option Val := fun _ _ => none

/-- Lookup in an insertion-ordered association list (CPython dict read). -/
def dget (d : List (String × Val)) (k : String) : Option Val :=
  (d.find? (fun p => p.1 == k)).map (fun p => p.2)

/-- Key presence in an insertion-ordered association list. -/
def dhas (d : List (String × Val)) (k : String) : Bool :=
  (dget d k).isSome

/-- Write to an insertion-ordered association list: an existing key keeps its
position, a new key is appended (CPython dict update semantics, which also
govern attribute insertion order in `__dict__`). -/
def dset : List (String × Val) → String → Val → List (String × Val)
  | [], k, v => [(k, v)]
  | (k', v') :: rest, k, v =>
    if k' = k then (k, v) :: rest else (k', v') :: dset rest k v

/-- A knowledge `Element` (rules.py class Element): an open record embedded
as its `__dict__`, an insertion-ordered association list. -/
structure Element where
  fields : List (String × Val)
deriving DecidableEq, Repr

def Element.getVal (e : Element) (k : String) : Option Val := dget e.fields k

def Element.setVal (e : Element) (k : String) (v : Val) : Element :=
  ⟨dset e.fields k v⟩

def Element.hasKey (e : Element) (k : String) : Bool := dhas e.fields k

/-- `key.startswith("__")` (the loop of `Element.match` skips such keys). -/
def isDunder (k : String) : Bool :=
  match k.data with
  | '_' :: '_' :: _ => true
  | _ => false

/-- Single-character `str.startswith` tests used by the action language. -/
def headIs (c : Char) (s : String) : Bool :=
  match s.data with
  | c' :: _ => c' = c
  | _ => false

/-- Loop body of `Element.match` (rules.py 194-210): walk the test's fields
in order over the evolving element `cur` with accumulator `score`.  A capture
(`match_target` truthy) is written back into the element before the
zero-quality check, so even a failing extract field mutates the element. -/
def matchGo (reS : String → String → Option Val) :
    List (String × Val) → Element → ℚ → Except MErr (ℚ × Element)
  | [], cur, score => .ok (score, cur)
  | (k, tv) :: rest, cur, score =>
    if isDunder k then matchGo reS rest cur score
    else if cur.hasKey k then
      match matcher reS ((cur.getVal k).getD .vNone) tv with
      | .error e => .error e
      | .ok r =>
        let cur2 : Element :=
          match r.target with
          | some tg => if tg = "" then cur else cur.setVal (k ++ "/" ++ tg) (r.extracted.getD .vNone)
          | none => cur
        if r.quality = 0 then .ok (0, cur2)
        else matchGo reS rest cur2 (score + 100 + r.quality)
    else .ok (0, cur)

/-- `Element.match` (rules.py 181-210).  Python mutates `self` in place and
returns only the score; the embedding returns the score together with the
post-call element state. -/
def Element.matchScore (reS : String → String → Option Val)
    (self test : Element) : Except MErr (ℚ × Element) :=
  matchGo reS test.fields self 0

/-!  Rules and the action language.  -/

/-- One entry of a rule's action list: a Python dict (`amap`) or tuple
(`tup`).  Dict contents are irrelevant to behaviour because executing a dict
action calls the nonexistent `dict.elements()` first. -/
inductive PAct where
  | amap (m : List (Val × Val))
  | tup (l : List Val)
deriving DecidableEq, Repr

/-- A `Rule` (rules.py class Rule).  `rid` stands for the generated
`__id__` tag (its only role here is rule identity); `nspace` is
`__namespace__`, `weight` is `__weight__`. -/
structure Rule where
  rid : Nat
  conditions : Element
  actions : List PAct
  weight : ℚ
  nspace : String
deriving DecidableEq, Repr

/-- `Rule.match` (rules.py 244-249): the knowledge element is matched
against the rule's conditions, so captures land in the knowledge element. -/
def Rule.matchR (reS : String → String → Option Val) (r : Rule)
    (knowledge : Element) : Except MErr (ℚ × Element) :=
  Element.matchScore reS knowledge r.conditions

/-- The exception rule execution can raise. -/
inductive ExecErr where
  | attrErr
deriving DecidableEq, Repr

/-- Execution environment of `Rule.execute`: immediate memory, optional
long-term memory (both Python dicts), and a log of `artifacts.process`
invocations, so that "the engine calls the artifacts collaborator" is an
observable statement. -/
structure ExecSt where
  imm : List (String × Val)
  lng : Option (List (String × Val))
  calls : List (String × Option Val)
deriving DecidableEq, Repr

/-- `Rule._action_memory` (rules.py 251-274): `@` forces the long-term
target, `$name` values are resolved against immediate then long memory
(unresolved references become `None`), and the destination test uses Python
truthiness, so an empty dict is never written to. -/
def actionMemory (key0 : String) (v : Val) (st : ExecSt) : ExecSt :=
  let forceLong := headIs '@' key0
  let key := if forceLong then String.mk (key0.data.drop 1) else key0
  let value : Val :=
    match v with
    | .vStr s =>
      if headIs '$' s then
        let vk := String.mk (s.data.drop 1)
        if dhas st.imm vk then (dget st.imm vk).getD .vNone
        else
          match st.lng with
          | some l => if !l.isEmpty && dhas l vk then (dget l vk).getD .vNone else .vNone
          | none => .vNone
      else v
    | _ => v
  match st.lng with
  | some l =>
    if !l.isEmpty && (dhas l key || forceLong) then
      { st with lng := some (dset l key value) }
    else if !st.imm.isEmpty && !forceLong then
      { st with imm := dset st.imm key value }
    else st
  | none =>
    if !st.imm.isEmpty && !forceLong then
      { st with imm := dset st.imm key value }
    else st

/-- `Rule._is_action_artifact` (rules.py 276-278). -/
def isArtifactAct (v : Val) : Bool :=
  match v with
  | .vStr s => headIs '!' s
  | _ => false

/-- `Rule._action_artifact` (rules.py 280-282): the body is `pass`.  In
particular `artifacts.process` is never invoked, so the call log is
unchanged. -/
def actionArtifact (st : ExecSt) : ExecSt := st

/-- One iteration of the action loop of `Rule.execute` (rules.py 300-316).
A dict action calls `action.elements()`, which does not exist on Python
dicts, hence `AttributeError`; a non-artifact singleton evaluates the
undefined attribute `self.DEFAULT_KEY`, hence `AttributeError`; a pair
action with a non-string key reaches `key.startswith` in `_action_memory`,
hence `AttributeError`; tuples of any other length are silently skipped. -/
def execAct (st : ExecSt) (a : PAct) : Except ExecErr ExecSt :=
  match a with
  | .amap _ => .error .attrErr
  | .tup [a0] =>
    if isArtifactAct a0 then .ok (actionArtifact st)
    else .error .attrErr
  | .tup [a0, a1] =>
    if isArtifactAct a0 then .ok (actionArtifact st)
    else
      match a0 with
      | .vStr k => .ok (actionMemory k a1 st)
      | _ => .error .attrErr
  | .tup _ => .ok st

/-- The action loop of `Rule.execute`. -/
def execGo : List PAct → ExecSt → Except ExecErr ExecSt
  | [], st => .ok st
  | a :: rest, st =>
    match execAct st a with
    | .error e => .error e
    | .ok st2 => execGo rest st2

/-- `Rule.execute` (rules.py 284-318). -/
def Rule.execute (r : Rule) (st : ExecSt) : Except ExecErr ExecSt :=
  execGo r.actions st

/-!  RuleBase and selection.  -/

/-- `RuleBase` (rules.py class RuleBase): a dict from namespace to the
rules added under it.  Python keeps the rules in a `set` whose iteration
order is unspecified; the embedding makes the order an explicit list, so a
concrete base fixes one of the orders a run can exhibit. -/
abbrev RuleBase := List (String × List Rule)

def rbGet (rb : RuleBase) (k : String) : Option (List Rule) :=
  (rb.find? (fun p => p.1 == k)).map (fun p => p.2)

def rbKeys (rb : RuleBase) : List String := rb.map (fun p => p.1)

/-- Strategy constants (rules.py 333-335). -/
def FIRST_MATCH : Nat := 0
def BEST_MATCHES : Nat := 1
def ALL_MATCHES : Nat := 2

/-- The `namespace` argument of `select`: `None`, a single string, or an
iterable of namespace strings (embedded as the hashable case, a tuple; a
Python `list` argument additionally raises `TypeError: unhashable` at the
`ns in self` dict lookup). -/
inductive NsArg where
  | nsNone
  | nsStr (s : String)
  | nsTup (l : List String)
deriving DecidableEq, Repr

/-- A member of the computed `search_space`: either a string key or a whole
tuple used as a single dict key. -/
inductive NsKey where
  | kStr (s : String)
  | kTup (l : List String)
deriving DecidableEq, Repr

/-- Python truthiness of the namespace argument. -/
def nsTruthy : NsArg → Bool
  | .nsNone => false
  | .nsStr s => !s.isEmpty
  | .nsTup l => !l.isEmpty

/-- The `search_space` computation (rules.py 371-373): a truthy namespace
argument is an `Iterable` both for strings and for tuples, so the whole
argument is wrapped in a one-element list; only a falsy argument falls
through to `self.keys()`. -/
def searchSpace (rb : RuleBase) (ns : NsArg) : List NsKey :=
  if nsTruthy ns then
    match ns with
    | .nsStr s => [.kStr s]
    | .nsTup l => [.kTup l]
    | .nsNone => []
  else (rbKeys rb).map .kStr

/-- The value bound to `best_rule` at the end of `select`: `None`, a rule,
or - via the unweighted `random.choices(cache_matches)` call, which returns
a one-element list - a list of rules. -/
inductive BestVal where
  | noneV
  | ruleV (r : Rule)
  | listV (l : List Rule)
deriving DecidableEq, Repr

/-- The scan state of `select`'s rule loop: running best score and rule, the
weight-calculation flag, the candidate cache (a list only for
BEST_MATCHES/ALL_MATCHES), the evolving test element, and the FIRST_MATCH
break flag. -/
structure ScanSt where
  bestScore : ℚ
  bestRule : Option Rule
  wCalc : Bool
  cache : Option (List Rule)
  el : Element
  stop : Bool
deriving Repr

/-- The per-rule update of `select`'s scan (rules.py 382-398) for a rule
that scored `score`: zero scores are skipped (walrus truthiness);
FIRST_MATCH records the rule and breaks; a strictly better score resets the
cache for BEST_MATCHES only before appending; a tying score appends.
Scores strictly between zero and the running best are dropped in every
strategy.  (For a strategy outside 0/1/2 with a `None` cache Python would
raise `AttributeError` on `cache_matches.append`; the claims only exercise
strategies 0-2, where the cache is a list whenever this code runs.) -/
def scanRule (strat : Nat) (r : Rule) (score : ℚ) (st : ScanSt) : ScanSt :=
  if score = 0 then st
  else if strat = 0 then
    { st with bestScore := score, bestRule := some r, stop := true }
  else if score > st.bestScore then
    let c1 := if strat = 1 then st.cache.map (fun _ => ([] : List Rule)) else st.cache
    { st with
        bestScore := score
        bestRule := some r
        cache := c1.map (fun c => c ++ [r])
        wCalc := if r.weight = 1 then st.wCalc else true }
  else if score = st.bestScore then
    { st with
        cache := st.cache.map (fun c => c ++ [r])
        wCalc := if r.weight = 1 then st.wCalc else true }
  else st

/-- The inner rule loop of `select` over one namespace's rules.  Matching is
run even when the result is discarded, so captures accumulate in the test
element across rules; matcher exceptions propagate out of `select`. -/
def scanRules (reS : String → String → Option Val) (strat : Nat) :
    List Rule → ScanSt → Except MErr ScanSt
  | [], st => .ok st
  | r :: rs, st =>
    if st.stop then .ok st
    else
      match Element.matchScore reS st.el r.conditions with
      | .error e => .error e
      | .ok p => scanRules reS strat rs (scanRule strat r p.1 { st with el := p.2 })

/-- The outer namespace loop of `select` (rules.py 375-403): a key absent
from the base is skipped (`if not ns in self: continue`); a tuple key is
never equal to any of the base's string keys; after a FIRST_MATCH hit the
remaining namespaces are not visited. -/
def scanSpace (reS : String → String → Option Val) (strat : Nat)
    (rb : RuleBase) : List NsKey → ScanSt → Except MErr ScanSt
  | [], st => .ok st
  | k :: ks, st =>
    if st.stop then .ok st
    else
      match k with
      | .kTup _ => scanSpace reS strat rb ks st
      | .kStr s =>
        match rbGet rb s with
        | none => scanSpace reS strat rb ks st
        | some rules =>
          match scanRules reS strat rules st with
          | .error e => .error e
          | .ok st2 => scanSpace reS strat rb ks st2

/-- A default rule for total list indexing (never selected: the picks below
index within bounds for draws in `[0,1)` and non-empty candidate lists). -/
def defRule : Rule := ⟨0, ⟨[]⟩, [], 1, ("_")⟩

/-- CPython `random.choices(population)` without weights picks
`population[floor(random() * len(population))]`. -/
def uniformPick (c : List Rule) (u : ℚ) : Rule :=
  c.getD (Int.toNat (Rat.floor (u * (c.length : ℚ)))) defRule

/-- Bisection over cumulative weights, capped at the last index
(CPython `bisect.bisect(cum_weights, x, 0, hi)` with `hi = len - 1`). -/
def wpickGo : List Rule → ℚ → ℚ → Rule
  | [], _, _ => defRule
  | [r], _, _ => r
  | r :: r2 :: rs, x, acc =>
    if x < acc + r.weight then r else wpickGo (r2 :: rs) x (acc + r.weight)

/-- The weighted branch of `select` (rules.py 417-421): every weight is
normalised by the total, `random.choices` forms cumulative sums of the
normalised weights and bisects with draw `u`; over exact rationals this is
the bisection of the raw cumulative sums at `u * total`. -/
def weightedPick (c : List Rule) (u : ℚ) : Rule :=
  wpickGo c (u * c.foldl (fun a r => a + r.weight) 0) 0

/-- `RuleBase.select` (rules.py 354-424).  `u` is the `random.random()`
draw consumed by whichever `random.choices` call runs (if any); the
returned element is the post-call state of the (mutated-in-place) test
element. -/
def select (reS : String → String → Option Val) (u : ℚ) (rb : RuleBase)
    (test : Element) (ns : NsArg) (strat : Nat) :
    Except MErr (BestVal × ℚ × Option (List Rule) × Element) :=
  let st0 : ScanSt :=
    ⟨0, none, false, if strat = 1 || strat = 2 then some [] else none, test, false⟩
  match scanSpace reS strat rb (searchSpace rb ns) st0 with
  | .error e => .error e
  | .ok st =>
    let bv : BestVal :=
      match st.cache with
      | some (x :: xs) =>
        if xs.isEmpty then .ruleV x
        else if st.wCalc then .ruleV (weightedPick (x :: xs) u)
        else .listV [uniformPick (x :: xs) u]
      | _ =>
        match st.bestRule with
        | some r => .ruleV r
        | none => .noneV
    .ok (bv, st.bestScore, st.cache, st.el)

/-!  Concrete inputs used by the claim theorems.  -/

/-- C1: a two-field rule that scores 202 against the test element. -/
def r1C1 : Rule := ⟨1, ⟨[("a", .vStr ("x")), ("b", .vStr ("y"))]⟩, [], 1, ("_")⟩

/-- C1: a one-field rule that scores 101 against the test element. -/
def r2C1 : Rule := ⟨2, ⟨[("a", .vStr ("x"))]⟩, [], 1, ("_")⟩

/-- C1: a base whose namespace iterates the higher-scoring rule first. -/
def rbC1 : RuleBase := [(("_"), [r1C1, r2C1])]

/-- C1: the test element matching both rules. -/
def elC1 : Element := ⟨[("a", .vStr ("x")), ("b", .vStr ("y"))]⟩

/-- C2: two rules with identical conditions and weight 1.0. -/
def r1C2 : Rule := ⟨1, ⟨[("a", .vStr ("x"))]⟩, [], 1, ("_")⟩

/-- C2: the second of the two tied rules. -/
def r2C2 : Rule := ⟨2, ⟨[("a", .vStr ("x"))]⟩, [], 1, ("_")⟩

/-- C2: the base holding the two tied rules. -/
def rbC2 : RuleBase := [(("_"), [r1C2, r2C2])]

/-- C2: the test element matching both rules with equal score. -/
def elC2 : Element := ⟨[("a", .vStr ("x"))]⟩

/-- C3: a rule in namespace `a` matching the test element. -/
def rAC3 : Rule := ⟨1, ⟨[("k", .vStr ("v"))]⟩, [], 1, ("a")⟩

/-- C3: the base with the single populated namespace `a`. -/
def rbC3 : RuleBase := [(("a"), [rAC3])]

/-- C3: the test element matching `rAC3`. -/
def elC3 : Element := ⟨[("k", .vStr ("v"))]⟩

/-- C4: a rule whose only action is a mapping (dict) action. -/
def rC4 : Rule := ⟨1, ⟨[]⟩, [.amap [(.vStr ("a"), .vInt 1)]], 1, ("_")⟩

/-- C4: a non-empty immediate memory for executing `rC4`. -/
def stC4 : ExecSt := ⟨[("m", .vInt 0)], none, []⟩

/-- C5: a rule whose only action is the artifact-marked pair `("!f", "p")`. -/
def rC5 : Rule := ⟨1, ⟨[]⟩, [.tup [.vStr ("!f"), .vStr ("p")]], 1, ("_")⟩

/-- C5: a non-empty immediate memory and empty call log for executing `rC5`. -/
def stC5 : ExecSt := ⟨[("x", .vInt 0)], none, []⟩

/-- C6: an element whose only field fails the extract test `x$*`. -/
def elC6 : Element := ⟨[("a", .vStr ("abc"))]⟩

/-- C6: a test with a failing extract-match field. -/
def tC6 : Element := ⟨[("a", .vStr ("x$*"))]⟩

/-- C9: an element whose `a` field extract-matches and whose `a/match`
capture field is initially absent. -/
def elC9 : Element := ⟨[("a", .vStr ("pq r"))]⟩

/-- C9: a test whose second field name is exactly the capture field the
first field writes. -/
def tC9 : Element := ⟨[("a", .vStr ("p$*$")), ("a/match", .vStr ("q"))]⟩

/-- C9 witness: a one-field element. -/
def elC9w : Element := ⟨[("a", .vStr ("v"))]⟩

/-- C9 witness: a wildcard test (extract-free). -/
def tC9w : Element := ⟨[("a", .vStr ("*"))]⟩

/-- C10: an element whose first field extract-matches and whose second
field fails. -/
def elC10 : Element := ⟨[("a", .vStr ("pq r")), ("b", .vStr ("z"))]⟩

/-- C10: a test whose named capture on field `a` is written before field
`b` aborts the match. -/
def tC10 : Element := ⟨[("a", .vStr ("p$*$/@m")), ("b", .vStr ("w"))]⟩

/-!  Definitions supporting the C9 score characterisation.  -/

/-- A test value without the `$*` extraction marker: the matcher never
produces a capture name for it, so matching against it cannot mutate the
element. -/
def extractFreeVal : Val → Bool
  | .vStr s => !hasSubL ['$', '*'] s.data
  | _ => true

/-- A test element none of whose field values carries an extraction
marker. -/
def extractFree (t : Element) : Bool :=
  t.fields.all (fun p => extractFreeVal p.2)

/-- The per-field match quality the claim's summation refers to, read off
the field matcher against the element (0 if the matcher would raise, a case
the C9 theorem's error-free hypothesis excludes anyway). -/
def qualOf (reS : String → String → Option Val) (self : Element)
    (p : String × Val) : ℚ :=
  match matcher reS ((self.getVal p.1).getD .vNone) p.2 with
  | .ok r => r.quality
  | .error _ => 0

/-- Transcribed from the specification's wording (spec 4.1): a test field
passes if it is internal-bookkeeping (skipped), or is present in the
element with a nonzero match quality. -/
def fieldOK (reS : String → String → Option Val) (self : Element)
    (p : String × Val) : Bool :=
  isDunder p.1 || (self.hasKey p.1 && !(decide (qualOf reS self p = 0)))

/-- Transcribed from the specification's wording (spec 4.1): the match
score is 0 as soon as some test field is absent from the element or scores
quality 0, and otherwise the sum over the matched (non-internal) test
fields of `100 + quality`. -/
def specMatchScore (reS : String → String → Option Val)
    (self test : Element) : ℚ :=
  if test.fields.all (fieldOK reS self) then
    test.fields.foldl
      (fun acc p => if isDunder p.1 then acc else acc + 100 + qualOf reS self p) 0
  else 0

end Owlmind

namespace Owlmind

/-- The coercion step sends a string/string pair to itself: whenever both
coerced sides are strings they are the original value and test. -/
theorem coerceVal_str (v t : Val) (a b : String)
    (h : coerceVal v t = (.vStr a, .vStr b)) : v = .vStr a ∧ t = .vStr b := by
  cases v <;> cases t <;> simp_all [coerceVal]

/-- In the string branch, a test without the `$*` marker never yields a
capture name. -/
theorem strMatch_target (reS : String → String → Option Val) (mv0 : Val)
    (vs ts : String) (h : hasSubL ['$', '*'] ts.data = false)
    (r : ℚ × Val × Option String) (hok : strMatch reS mv0 vs ts = .ok r) :
    r.2.2 = none := by
  simp only [strMatch] at hok
  rw [h] at hok
  simp only [Bool.false_eq_true, if_false] at hok
  repeat' split at hok
  all_goals
    first
      | exact Except.noConfusion hok
      | (injection hok with h2; subst h2; rfl)

/-- `matcherCore` yields no capture name on an extract-free test. -/
theorem matcherCore_target (reS : String → String → Option Val) (v tv : Val)
    (h : extractFreeVal tv = true) (r : ℚ × Val × Option String)
    (hok : matcherCore reS v tv = .ok r) : r.2.2 = none := by
  unfold matcherCore at hok
  split at hok
  next vs ts heq =>
    obtain ⟨hv, ht⟩ := coerceVal_str v tv vs ts heq
    subst ht
    refine strMatch_target reS v vs ts ?_ r hok
    simpa [extractFreeVal] using h
  next =>
    repeat' split at hok
    all_goals
      first
        | exact Except.noConfusion hok
        | (injection hok with h2; subst h2; rfl)

/-- `_matcher` yields no capture name on an extract-free test. -/
theorem matcher_target (reS : String → String → Option Val) (v tv : Val)
    (h : extractFreeVal tv = true) (r : MRes)
    (hok : matcher reS v tv = .ok r) : r.target = none := by
  unfold matcher at hok
  cases hc : matcherCore reS v tv with
  | error e => rw [hc] at hok; simp [Except.map] at hok
  | ok c =>
    rw [hc] at hok
    simp only [Except.map, Except.ok.injEq] at hok
    have ht := matcherCore_target reS v tv h c hc
    rw [← hok]
    simpa using ht

/-- On the return line of `_matcher`, a zero quality forces the extracted
value to `None` (`match_value if match_quality else None`). -/
theorem matcher_q0 (reS : String → String → Option Val) (v tv : Val)
    (r : MRes) (hok : matcher reS v tv = .ok r) (hq : r.quality = 0) :
    r.extracted = none := by
  unfold matcher at hok
  cases hc : matcherCore reS v tv with
  | error e => rw [hc] at hok; simp [Except.map] at hok
  | ok c =>
    rw [hc] at hok
    simp only [Except.map, Except.ok.injEq] at hok
    rw [← hok] at hq ⊢
    simp_all

/-- The loop of `Element.match` on an extract-free suffix of the test's
fields: the element is left unchanged and the score is the specification's
characterisation relative to the incoming accumulator. -/
theorem matchGo_spec (reS : String → String → Option Val) (self : Element) :
    ∀ (fs : List (String × Val)) (sc0 sc : ℚ) (el' : Element),
      fs.all (fun p => extractFreeVal p.2) = true →
      matchGo reS fs self sc0 = .ok (sc, el') →
      el' = self ∧
      sc = (if fs.all (fieldOK reS self) then
              fs.foldl
                (fun acc p => if isDunder p.1 then acc else acc + 100 + qualOf reS self p) sc0
            else 0) := by
  intro fs
  induction fs with
  | nil =>
    intro sc0 sc el' _ hok
    simp only [matchGo, Except.ok.injEq, Prod.mk.injEq] at hok
    simp [← hok.1, ← hok.2]
  | cons p rest ih =>
    intro sc0 sc el' hall hok
    obtain ⟨k, tv⟩ := p
    simp only [List.all_cons, Bool.and_eq_true] at hall
    obtain ⟨hx, hrest⟩ := hall
    simp only [matchGo] at hok
    by_cases hd : isDunder k = true
    · rw [if_pos hd] at hok
      obtain ⟨h1, h2⟩ := ih sc0 sc el' hrest hok
      have hf : fieldOK reS self (k, tv) = true := by simp [fieldOK, hd]
      refine ⟨h1, ?_⟩
      rw [h2, List.all_cons, hf, Bool.true_and, List.foldl_cons]
      simp [hd]
    · rw [if_neg hd] at hok
      simp only [Bool.not_eq_true] at hd
      by_cases hk : Element.hasKey self k = true
      · rw [if_pos hk] at hok
        cases hm : matcher reS ((self.getVal k).getD .vNone) tv with
        | error e => rw [hm] at hok; simp at hok
        | ok r =>
          rw [hm] at hok
          have htg : r.target = none := matcher_target reS _ tv hx r hm
          simp only [htg] at hok
          have hqof : qualOf reS self (k, tv) = r.quality := by
            simp [qualOf, hm]
          by_cases hq : r.quality = 0
          · rw [if_pos hq] at hok
            simp only [Except.ok.injEq, Prod.mk.injEq] at hok
            have hfok : fieldOK reS self (k, tv) = false := by
              simp [fieldOK, hd, hk, hqof, hq]
            refine ⟨hok.2.symm, ?_⟩
            rw [← hok.1]
            simp [List.all_cons, hfok]
          · rw [if_neg hq] at hok
            obtain ⟨h1, h2⟩ := ih (sc0 + 100 + r.quality) sc el' hrest hok
            have hfok : fieldOK reS self (k, tv) = true := by
              simp [fieldOK, hk, hqof, hq]
            refine ⟨h1, ?_⟩
            rw [h2, List.all_cons, hfok, Bool.true_and, List.foldl_cons]
            simp [hd, hqof]
      · rw [if_neg hk] at hok
        simp only [Except.ok.injEq, Prod.mk.injEq] at hok
        have hfok : fieldOK reS self (k, tv) = false := by
          simp only [Bool.not_eq_true] at hk
          simp [fieldOK, hd, hk]
        refine ⟨hok.2.symm, ?_⟩
        rw [← hok.1]
        simp [List.all_cons, hfok]

section ConcreteEvaluation

attribute [local semireducible] Rat.add Rat.mul Rat.inv Rat.sub

/-- C1: with strategy ALL_MATCHES, the rule `r2C1` scores a nonzero 101
against the test element, yet the returned candidate set is `[r1C1]` - the
scan appends a rule only when its score ties or beats the running best, so
a nonzero score below the running best is dropped, contrary to the claim
(and to the docstring "it will consider the options between all matches"). -/
theorem C1_code_bug :
    select noRe 0 rbC1 elC1 .nsNone 2 = .ok (.ruleV r1C1, 202, some [r1C1], elC1)
    ∧ Element.matchScore noRe elC1 r2C1.conditions = .ok (101, elC1)
    ∧ r2C1 ∉ [r1C1] := by
  decide

/-- C2: with a two-member candidate set whose weights are all 1.0, the
first component of the result is `random.choices(cache_matches)`, a
ONE-ELEMENT LIST, not a member of the candidate set: the unweighted branch
is missing the `[0]` indexing the weighted branch has. -/
theorem C2_code_bug :
    select noRe 0 rbC2 elC2 .nsNone 1
        = .ok (.listV [r1C2], 101, some [r1C2, r2C2], elC2)
    ∧ BestVal.listV [r1C2] ≠ BestVal.ruleV r1C2 := by
  decide

/-- C3: passing the iterable `("a",)` as the namespace argument makes the
whole tuple a single search key, which is absent from the base, so nothing
is searched and no rule is found - while the same call with the single
string `"a"` finds the matching rule.  The claimed per-member iteration
never happens. -/
theorem C3_code_bug :
    select noRe 0 rbC3 elC3 (.nsTup [("a")]) 2 = .ok (.noneV, 0, some [], elC3)
    ∧ select noRe 0 rbC3 elC3 (.nsStr ("a")) 2
        = .ok (.ruleV rAC3, 101, some [rAC3], elC3) :=
  ⟨by decide, by decide⟩

/-- C4: executing a rule whose action list contains a mapping (dict) action
raises `AttributeError` (the loop calls `action.elements()`, which Python
dicts do not have), instead of applying the pairs as memory assignments. -/
theorem C4_code_bug : Rule.execute rC4 stC4 = .error .attrErr := by
  decide

/-- C5 counterexample: executing the artifact-marked pair action
`("!f", "p")` leaves the execution state - including the log of
`artifacts.process` invocations - completely unchanged: the engine never
calls `artifacts.process("f", "p")` because `_action_artifact` is `pass`. -/
theorem C5_counterexample :
    Rule.execute rC5 stC5 = .ok stC5
    ∧ stC5.calls = []
    ∧ ([] : List (String × Option Val)) ≠ [(("f"), some (.vStr ("p")))] := by
  decide

/-- C6 counterexample: on the failing extract test `x$*` the matcher
returns quality 0 with extracted value `none` but capture name
`some "match"` (the name is assigned before the search is attempted and
returned unconditionally), and `Element.match` consequently performs a
write-back of `None` into the capture field `a/match`. -/
theorem C6_counterexample :
    matcher noRe (.vStr ("abc")) (.vStr ("x$*")) = .ok ⟨0, none, some ("match")⟩
    ∧ Element.matchScore noRe elC6 tC6
        = .ok (0, ⟨[("a", .vStr ("abc")), ("a/match", .vNone)]⟩)
    ∧ some ("match") ≠ (none : Option String) := by
  decide

/-- C7: on value `"ab"` and test `"ab*ab"` the prefix and suffix overlap,
so the quality is `(len("ab") + len("ab")) / len("ab") = 2.0`, outside the
claimed interval `[0,1]` (and outside the docstring's stated range). -/
theorem C7_code_bug :
    matcher noRe (.vStr ("ab")) (.vStr ("ab*ab")) = .ok ⟨2, some (.vStr ("ab")), none⟩
    ∧ ¬((2 : ℚ) ≤ 1) := by
  decide

/-- C8: `_matcher` is not total: on the empty value and the test `"**"`
the contains branch finds the empty pattern in the empty value and then
evaluates `len("")/len("")`, raising `ZeroDivisionError`. -/
theorem C8_code_bug :
    matcher noRe (.vStr ("")) (.vStr ("**")) = .error .zeroDiv := by
  decide

/-- C9 counterexample: the test's field `a/match` is absent from the tested
element at call time, yet the match does not return 0: the extract capture
of the earlier field `a` writes `a/match` into the element just in time for
the presence check, and the match returns 201.75. -/
theorem C9_counterexample :
    Element.matchScore noRe elC9 tC9
        = .ok (807/4, ⟨[("a", .vStr ("pq r")), ("a/match", .vStr ("q"))]⟩)
    ∧ Element.hasKey elC9 ("a/match") = false
    ∧ (807/4 : ℚ) ≠ 0 := by
  decide

/-- C10: match failure is not atomic: on `elC10`/`tC10` the first field's
named capture `a/m` is written into the element, the second field then
fails, and the call returns score 0 with the capture still present in the
element (which did not contain `a/m` before the call). -/
theorem C10_capture_persists :
    Element.matchScore noRe elC10 tC10
        = .ok (0, ⟨[("a", .vStr ("pq r")), ("b", .vStr ("z")), ("a/m", .vStr ("q"))]⟩)
    ∧ Element.hasKey elC10 ("a/m") = false := by
  decide

/-- C5 amended: a pair action whose key carries the `!` artifact marker is
routed to the artifact handler instead of a memory assignment (likewise an
artifact-marked singleton), but that handler is the no-op stub
`_action_artifact`, so the execution state - memories and the
`artifacts.process` call log alike - is returned unchanged, and the marker
is never stripped because the key is never used. -/
theorem C5_amended (st : ExecSt) (k : String) (v : Val)
    (h : headIs '!' k = true) :
    execAct st (.tup [.vStr k, v]) = .ok st
    ∧ execAct st (.tup [.vStr k]) = .ok st := by
  constructor <;> simp [execAct, isArtifactAct, actionArtifact, h]

/-- C5 witness: the amended theorem applied to the artifact action
`("!f",)` on an empty state. -/
theorem C5_witness :
    headIs '!' ("!f") = true
    ∧ execAct ⟨[], none, []⟩ (.tup [.vStr ("!f"), .vNone]) = .ok ⟨[], none, []⟩ :=
  ⟨by decide, (C5_amended ⟨[], none, []⟩ ("!f") .vNone (by decide)).1⟩

/-- C6 amended: whenever `_matcher` returns quality 0 the extracted value
is `None`, but the capture name is not: it is returned as assigned
(default `match` or the declared `/@` name) even for a failed extract
test, and `Element.match` consequently writes `None` into the capture
field of a failed extract-match field. -/
theorem C6_amended :
    (∀ (reS : String → String → Option Val) (v t : Val) (r : MRes),
        matcher reS v t = .ok r → r.quality = 0 → r.extracted = none)
    ∧ Element.matchScore noRe elC6 tC6
        = .ok (0, ⟨[("a", .vStr ("abc")), ("a/match", .vNone)]⟩) :=
  ⟨fun reS v t r hok hq => matcher_q0 reS v t r hok hq, by decide⟩

/-- C6 witness: the amended theorem applied to the concrete zero-quality
pair `("u", "w")`. -/
theorem C6_witness :
    matcher noRe (.vStr ("u")) (.vStr ("w")) = .ok ⟨0, none, none⟩
    ∧ (⟨0, none, none⟩ : MRes).extracted = none :=
  ⟨by decide,
   C6_amended.1 noRe (.vStr ("u")) (.vStr ("w")) ⟨0, none, none⟩ (by decide) rfl⟩

/-- C9 amended: as long as no test field carries a `$*` extraction marker
(so no capture write-back can occur) and no field evaluation raises,
`Element.match` leaves the element unchanged and returns exactly the
specification's score: 0 as soon as some (non-internal) test field is
absent from the element or scores quality 0, and otherwise the sum over the
test's fields of `100 + quality`.  With extraction markers the claim fails:
a capture written by an earlier field can make a later test field present
(see the counterexample), so presence must be judged against the evolving
element. -/
theorem C9_amended (reS : String → String → Option Val) (self test : Element)
    (sc : ℚ) (el' : Element) (he : extractFree test = true)
    (hok : Element.matchScore reS self test = .ok (sc, el')) :
    el' = self ∧ sc = specMatchScore reS self test := by
  have h := matchGo_spec reS self test.fields 0 sc el' he hok
  exact ⟨h.1, by rw [h.2]; rfl⟩

/-- C9 witness: the amended theorem applied to a concrete wildcard match
scoring 100.25. -/
theorem C9_witness :
    extractFree tC9w = true
    ∧ Element.matchScore noRe elC9w tC9w = .ok (401/4, elC9w)
    ∧ (elC9w = elC9w ∧ (401/4 : ℚ) = specMatchScore noRe elC9w tC9w) :=
  ⟨by decide, by decide,
   C9_amended noRe elC9w tC9w (401/4) elC9w (by decide) (by decide)⟩

end ConcreteEvaluation

end Owlmind
